import Mathlib

/-!
A verification development for the KVM accelerator control plane of
hyperturtle-qemu (`accel/kvm/kvm-all.c`).  The C functions relevant to the
memory-slot manager, the dirty trackers (bitmap and ring), the GSI routing
tables, the vCPU run loop and the hyperupcall registry are shallowly embedded
as executable Lean functions; machine integers are modelled as `Nat` with an
explicit modulus where C unsigned wrap-around matters.  External collaborators
(kernel ioctls, libbpf, guest memory accessors) are modelled by oracle
parameters carrying their results.
-/

/-- Modulus of 64-bit C unsigned arithmetic (`hwaddr`, `uint64_t`). -/
def U64 : Nat := 2 ^ 64

/-- Model of `qemu_real_host_page_size()`: the usual 4 KiB host page. -/
def hostPageSize : Nat := 4096

/-- C `ROUND_UP(n, d)` from osdep.h for a power-of-two `d`, computed in 64-bit
unsigned arithmetic: `((n + d - 1) & -d) mod 2^64`. -/
def round_up64 (n d : Nat) : Nat := ((n + d - 1) % U64) / d * d

/-- 64-bit unsigned subtraction `a - b` (two's complement wrap). -/
def wsub64 (a b : Nat) : Nat := (a % U64 + (U64 - b % U64)) % U64

/-- `kvm_align_section` (kvm-all.c).  Input: the section's
`offset_within_address_space` and byte size.  Pads the start address up to the
next host page boundary and truncates the size to the previous page boundary
(`& qemu_real_host_page_mask()`); returns `(start, size)`, with size 0 when the
rounding delta exceeds the section size. -/
def kvm_align_section (ofs size : Nat) : Nat × Nat :=
  let psize := hostPageSize
  let aligned := round_up64 ofs psize
  let delta := wsub64 aligned ofs
  if delta > size then (aligned, 0)
  else (aligned, wsub64 size delta / psize * psize)

/-- The spec-side rounding-up of an address to the host page size (no wrap):
used to compare `kvm_align_section`'s start against the claim's wording. -/
def roundUpPageSpec (ofs : Nat) : Nat :=
  (ofs + hostPageSize - 1) / hostPageSize * hostPageSize

/-- KVM memory-slot flag bit `KVM_MEM_LOG_DIRTY_PAGES` (linux uapi). -/
def KVM_MEM_LOG_DIRTY_PAGES : Nat := 1

/-- KVM memory-slot flag bit `KVM_MEM_READONLY` (linux uapi). -/
def KVM_MEM_READONLY : Nat := 2

/-- The fields of a `KVMSlot` read by `kvm_set_user_memory_region`. -/
structure KVMSlotUpd where
  slot : Nat
  start_addr : Nat
  ram : Nat
  flags : Nat
  old_flags : Nat
  memory_size : Nat

/-- One `KVM_SET_USER_MEMORY_REGION` ioctl argument (`struct
kvm_userspace_memory_region`). -/
structure UserMemRegionCall where
  slot : Nat
  guest_phys_addr : Nat
  userspace_addr : Nat
  flags : Nat
  memory_size : Nat
deriving DecidableEq

/-- `kvm_set_user_memory_region` (kvm-all.c lines 380-412), modelled as the
sequence of `KVM_SET_USER_MEMORY_REGION` calls it issues (each assumed to
succeed): a preparatory size-0 call exactly when the slot is non-new, its
(new) size is nonzero and the READONLY bit changed versus `old_flags`
(kernel commit 75d61fbc), then the call carrying the final state. -/
def kvm_set_user_memory_region_calls (as_id : Nat) (s : KVMSlotUpd) (isNew : Bool) :
    List UserMemRegionCall :=
  let memBase : UserMemRegionCall :=
    { slot := s.slot + as_id * 65536, guest_phys_addr := s.start_addr,
      userspace_addr := s.ram, flags := s.flags, memory_size := 0 }
  let memFinal : UserMemRegionCall := { memBase with memory_size := s.memory_size }
  if s.memory_size ≠ 0 ∧ isNew = false ∧ (s.flags ^^^ s.old_flags) &&& KVM_MEM_READONLY ≠ 0 then
    [memBase, memFinal]
  else
    [memFinal]

/-- `hyperupcall_map_elem_get_set` (hypercall opcode 19): deliberately
unimplemented, returns -1 unconditionally. -/
def hyperupcall_map_elem_get_set : Int := -1

/-- `handle_hypercall` (kvm-all.c lines 3727-3814): dispatch on opcode `nr`.
`lock_ok` models whether `pthread_mutex_lock` succeeds; `helper nr` is the
oracle result of the opcode's underlying operation (load/unload/link/unlink/
map/unmap for 13-18, and `create_vdpa_and_hotplug` for 23, whose result is
computed but discarded by the `return 0`). -/
def handle_hypercall (lock_ok : Bool) (helper : Nat → Int) (nr : Nat) : Int :=
  if nr = 13 ∨ nr = 14 ∨ nr = 15 ∨ nr = 16 ∨ nr = 17 ∨ nr = 18 then
    if lock_ok then helper nr else -1
  else if nr = 19 then
    if lock_ok then hyperupcall_map_elem_get_set else -1
  else if nr = 23 then
    let _vdpa_ret := helper 23
    0
  else 0

/-- errno `ENOENT`. -/
def ENOENT : Int := 2

/-- The fields of a `KVMSlot` relevant to dirty-bitmap syncing, at host-page
granularity: `start_page` is `ram_start_offset` in pages, `npages` is
`memory_size` in pages, `dirty_bmap` is the cached per-slot dirty bitmap. -/
structure KVMSlotSync where
  start_page : Nat
  npages : Nat
  dirty_bmap : Nat → Bool

/-- `kvm_slot_get_dirty_log` (kvm-all.c lines 725-743): issue
`KVM_GET_DIRTY_LOG`; the oracle `kernel_ret` is its result and
`kernel_bitmap` is the bitmap the kernel fully overwrites into
`slot->dirty_bmap` on success (on failure the buffer is untouched).
`-ENOENT` is remapped to success.  Returns the updated slot and `ret == 0`. -/
def kvm_slot_get_dirty_log (kernel_ret : Int) (kernel_bitmap : Nat → Bool)
    (slot : KVMSlotSync) : KVMSlotSync × Bool :=
  let slot2 := if kernel_ret = 0 then { slot with dirty_bmap := kernel_bitmap } else slot
  let ret := if kernel_ret = -ENOENT then 0 else kernel_ret
  (slot2, ret == 0)

/-- `kvm_slot_sync_dirty_pages` / `cpu_physical_memory_set_dirty_lebitmap`:
merge the slot's cached bitmap into the global dirty page state. -/
def kvm_slot_sync_dirty_pages (global : Nat → Bool) (slot : KVMSlotSync) : Nat → Bool :=
  fun a => global a ||
    (decide (slot.start_page ≤ a) && decide (a < slot.start_page + slot.npages) &&
      slot.dirty_bmap (a - slot.start_page))

/-- One slot's step of `kvm_physical_sync_dirty_bitmap` (kvm-all.c lines
961-963): fetch the dirty log and, if it reports success, merge the slot's
bitmap into the global dirty state; otherwise leave the global state alone.
Returns ((updated slot, reported success), updated global dirty state). -/
def kvm_physical_sync_dirty_bitmap_slot (kernel_ret : Int) (kernel_bitmap : Nat → Bool)
    (slot : KVMSlotSync) (global : Nat → Bool) : (KVMSlotSync × Bool) × (Nat → Bool) :=
  let r := kvm_slot_get_dirty_log kernel_ret kernel_bitmap slot
  if r.2 then (r, kvm_slot_sync_dirty_pages global r.1)
  else (r, global)

/-- Run-loop status `EXCP_INTERRUPT` (cpu-all.h, 0x10001). -/
def EXCP_INTERRUPT : Int := 65537

/-- KVM exit reason `KVM_EXIT_UNKNOWN` (linux uapi kvm.h). -/
def KVM_EXIT_UNKNOWN : Nat := 0

/-- KVM exit reason `KVM_EXIT_IO`. -/
def KVM_EXIT_IO : Nat := 2

/-- KVM exit reason `KVM_EXIT_HYPERCALL`. -/
def KVM_EXIT_HYPERCALL : Nat := 3

/-- KVM exit reason `KVM_EXIT_MMIO`. -/
def KVM_EXIT_MMIO : Nat := 6

/-- KVM exit reason `KVM_EXIT_IRQ_WINDOW_OPEN`. -/
def KVM_EXIT_IRQ_WINDOW_OPEN : Nat := 7

/-- KVM exit reason `KVM_EXIT_SHUTDOWN`. -/
def KVM_EXIT_SHUTDOWN : Nat := 8

/-- KVM exit reason `KVM_EXIT_INTERNAL_ERROR`. -/
def KVM_EXIT_INTERNAL_ERROR : Nat := 17

/-- KVM exit reason `KVM_EXIT_SYSTEM_EVENT`. -/
def KVM_EXIT_SYSTEM_EVENT : Nat := 24

/-- KVM exit reason `KVM_EXIT_DIRTY_RING_FULL`. -/
def KVM_EXIT_DIRTY_RING_FULL : Nat := 31

/-- KVM system event type `KVM_SYSTEM_EVENT_SHUTDOWN`. -/
def KVM_SYSTEM_EVENT_SHUTDOWN : Nat := 1

/-- KVM system event type `KVM_SYSTEM_EVENT_RESET`. -/
def KVM_SYSTEM_EVENT_RESET : Nat := 2

/-- KVM system event type `KVM_SYSTEM_EVENT_CRASH`. -/
def KVM_SYSTEM_EVENT_CRASH : Nat := 3

/-- errno `EINTR`. -/
def EINTR : Int := 4

/-- errno `EAGAIN`. -/
def EAGAIN : Int := 11

/-- VM-level transitions the run loop can request
(`qemu_system_reset_request`, `qemu_system_shutdown_request`,
`qemu_system_guest_panicked`). -/
inductive VmTransition where
  | resetRequest
  | shutdownRequest
  | guestPanicked
deriving DecidableEq

/-- The outcome of one blocking `KVM_RUN` call, with oracle results for the
architecture-specific handlers (`kvm_handle_internal_error`,
`kvm_arch_handle_exit`). -/
structure KVMRunOutcome where
  run_ret : Int
  exit_reason : Nat
  system_event_type : Nat
  internal_error_ret : Int
  arch_exit_ret : Int
deriving DecidableEq

/-- One iteration of the `kvm_cpu_exec` dispatch loop (kvm-all.c lines
3885-3998): the loop status `ret` computed from the run outcome, together
with the VM-level transition requests issued during the iteration. -/
def kvm_cpu_exec_step (o : KVMRunOutcome) : Int × List VmTransition :=
  if o.run_ret < 0 then
    if o.run_ret = -EINTR ∨ o.run_ret = -EAGAIN then (EXCP_INTERRUPT, []) else (-1, [])
  else if o.exit_reason = KVM_EXIT_HYPERCALL then (0, [])
  else if o.exit_reason = KVM_EXIT_IO then (0, [])
  else if o.exit_reason = KVM_EXIT_MMIO then (0, [])
  else if o.exit_reason = KVM_EXIT_IRQ_WINDOW_OPEN then (EXCP_INTERRUPT, [])
  else if o.exit_reason = KVM_EXIT_SHUTDOWN then (EXCP_INTERRUPT, [VmTransition.resetRequest])
  else if o.exit_reason = KVM_EXIT_UNKNOWN then (-1, [])
  else if o.exit_reason = KVM_EXIT_INTERNAL_ERROR then (o.internal_error_ret, [])
  else if o.exit_reason = KVM_EXIT_DIRTY_RING_FULL then (0, [])
  else if o.exit_reason = KVM_EXIT_SYSTEM_EVENT then
    if o.system_event_type = KVM_SYSTEM_EVENT_SHUTDOWN then
      (EXCP_INTERRUPT, [VmTransition.shutdownRequest])
    else if o.system_event_type = KVM_SYSTEM_EVENT_RESET then
      (EXCP_INTERRUPT, [VmTransition.resetRequest])
    else if o.system_event_type = KVM_SYSTEM_EVENT_CRASH then
      (0, [VmTransition.guestPanicked])
    else (o.arch_exit_ret, [])
  else (o.arch_exit_ret, [])

/-- The `do ... while (ret == 0)` loop of `kvm_cpu_exec`, driven by a script
of kernel run outcomes: returns the final loop status and the accumulated
transition requests, or `none` if the script is exhausted while the loop
would re-enter the kernel. -/
def kvm_cpu_exec_loop : List KVMRunOutcome → Option (Int × List VmTransition)
  | [] => none
  | o :: rest =>
    let r := kvm_cpu_exec_step o
    if r.1 = 0 then
      match kvm_cpu_exec_loop rest with
      | none => none
      | some (r2, evs2) => some (r2, r.2 ++ evs2)
    else some r

/-- `HYPERUPCALL_MAX_N_MEMSLOTS`: capacity of the shadow slot export table. -/
def HYPERUPCALL_MAX_N_MEMSLOTS : Nat := 128

/-- The globals backing the Shadow Slot Export Table: `used_memslots` and the
`memslot_*_local` arrays (kvm-all.c lines 221-225). -/
structure ShadowSlotState where
  used_memslots : Nat
  base_gfns : Nat → Nat
  npages : Nat → Nat
  userptrs : Nat → Nat
  as_ids : Nat → Nat

/-- Pointwise array update. -/
def updFn (f : Nat → Nat) (i v : Nat) : Nat → Nat := fun j => if j = i then v else f j

/-- The live tail of `kvm_set_user_memory_region` (kvm-all.c lines 414-438):
after a successful slot-set ioctl, raise `used_memslots` to the slot index if
larger (the per-slot array updates at this point are commented out in the
source); out-of-capacity indices only print a warning. -/
def kvm_set_user_memory_region_shadow (st : ShadowSlotState) (slotIdx : Nat) : ShadowSlotState :=
  if HYPERUPCALL_MAX_N_MEMSLOTS ≤ slotIdx then st
  else { st with used_memslots :=
          if st.used_memslots < slotIdx then slotIdx else st.used_memslots }

/-- The slot-registration step of the add path of `kvm_set_phys_mem`
(kvm-all.c lines 1510-1531): fill the local shadow arrays when the slot index
is in capacity and the address space is 0, then issue the slot-set call,
which updates `used_memslots`. -/
def kvm_set_phys_mem_register (st : ShadowSlotState)
    (slotIdx asId slotSizeBytes startAddr ram : Nat) : ShadowSlotState :=
  let st2 :=
    if slotIdx < HYPERUPCALL_MAX_N_MEMSLOTS ∧ asId = 0 then
      { st with as_ids := updFn st.as_ids slotIdx asId,
                npages := updFn st.npages slotIdx (slotSizeBytes >>> 12),
                base_gfns := updFn st.base_gfns slotIdx (startAddr >>> 12),
                userptrs := updFn st.userptrs slotIdx ram }
    else st
  kvm_set_user_memory_region_shadow st2 slotIdx

/-- The three shared bpf-map arrays the export table is mirrored into. -/
structure SharedSlotArrays where
  base_gfns : Nat → Nat
  npages : Nat → Nat
  userptrs : Nat → Nat

/-- `export_memslots_hyperupcall` (kvm-all.c lines 3087-3133, copy loop at
3120-3124): copy the local shadow arrays into the shared arrays for every
index `i < used_memslots`, leaving other indices as they were. -/
def export_memslots_hyperupcall (st : ShadowSlotState) (shared : SharedSlotArrays) :
    SharedSlotArrays :=
  { base_gfns := fun i => if i < st.used_memslots then st.base_gfns i else shared.base_gfns i,
    npages := fun i => if i < st.used_memslots then st.npages i else shared.npages i,
    userptrs := fun i => if i < st.used_memslots then st.userptrs i else shared.userptrs i }

/-- The zero-initialised shadow-table globals. -/
def initShadowState : ShadowSlotState :=
  { used_memslots := 0, base_gfns := fun _ => 0, npages := fun _ => 0,
    userptrs := fun _ => 0, as_ids := fun _ => 0 }

/-- `MAX_NUM_HYPERUPCALL_OBJS`. -/
def MAX_NUM_HYPERUPCALL_OBJS : Nat := 16

/-- `HYPERUPCALL_N_PROGRAM_SLOTS`. -/
def HYPERUPCALL_N_PROGRAM_SLOTS : Nat := 8

/-- `HYPERUPCALL_N_MAP_SLOTS`. -/
def HYPERUPCALL_N_MAP_SLOTS : Nat := 8

/-- One `struct HyperUpCall` pool entry: the loaded bpf object and its
program/map slot arrays (handles modelled as `Option Nat`). -/
structure HyperUpCall where
  obj : Option Nat
  links : Nat → Option Nat
  progs : Nat → Option Nat
  maps : Nat → Option Nat

/-- Scan the first `n` slots of handle-array `inUse` for a free one; the slot
index, or -1 if none is free. -/
def firstFreeSlot (inUse : Nat → Option Nat) (n : Nat) : Int :=
  match (List.range n).find? (fun i => (inUse i).isNone) with
  | some i => (i : Int)
  | none => -1

/-- `allocate_hyperupcall_prog_slot` (kvm-all.c lines 3006-3015).  Note: the
C body scans `hyperupcalls->progs`, i.e. the program slots of pool object 0,
ignoring the `hyperupcall` parameter it was handed. -/
def allocate_hyperupcall_prog_slot (pool : Nat → HyperUpCall) (_hyperupcall : Nat) : Int :=
  firstFreeSlot (pool 0).progs HYPERUPCALL_N_PROGRAM_SLOTS

/-- `KVM_CLEAR_LOG_SHIFT` (kvm-all.c line 970). -/
def KVM_CLEAR_LOG_SHIFT : Nat := 6

/-- `KVM_CLEAR_LOG_ALIGN`: 64 host pages, in bytes. -/
def kvmClearLogAlign : Nat := hostPageSize <<< KVM_CLEAR_LOG_SHIFT

/-- The fields of a `KVMSlot` used by `kvm_log_clear_one_slot`: the byte size
and the cached dirty bitmap, indexed by page within the slot. -/
structure KVMSlotBitmap where
  memory_size : Nat
  dirty_bmap : Nat → Bool

/-- C `bitmap_clear(b, start, len)`: clear `len` bits from `start`. -/
def bitmap_clear (b : Nat → Bool) (start len : Nat) : Nat → Bool :=
  fun i => if start ≤ i ∧ i < start + len then false else b i

/-- `kvm_log_clear_one_slot` (kvm-all.c lines 974-1079) for a clear request of
`start`/`size` bytes relative to the slot.  Mirrors the source: 64-page
alignment of the start, capping of the page count at the slot end, the
slow-path temporary bitmap (a copy of the covered range with the leading
padding zeroed; its tail is zero from `bitmap_new`) versus the fast-path
in-place bitmap, and the final `bitmap_clear` of exactly the caller's range
on the cached bitmap.  Returns (updated slot, bitmap handed to the kernel
indexed relative to `first_page`, `first_page`, `num_pages`). -/
def kvm_log_clear_one_slot (mem : KVMSlotBitmap) (start size : Nat) :
    KVMSlotBitmap × (Nat → Bool) × Nat × Nat :=
  let psize := hostPageSize
  let bmap_start_b := start - start % kvmClearLogAlign
  let start_delta_b := start - bmap_start_b
  let bmap_start := bmap_start_b / psize
  let bmap_npages0 :=
    (size + start_delta_b + kvmClearLogAlign - 1) / kvmClearLogAlign <<< KVM_CLEAR_LOG_SHIFT
  let endPage := mem.memory_size / psize
  let bmap_npages :=
    if bmap_npages0 > endPage - bmap_start then endPage - bmap_start else bmap_npages0
  let start_delta := start_delta_b / psize
  let kernel_bitmap : Nat → Bool :=
    if start_delta ≠ 0 ∨ bmap_npages - size / psize ≠ 0 then
      bitmap_clear
        (fun i => if i < start_delta + size / psize then mem.dirty_bmap (bmap_start + i) else false)
        0 start_delta
    else
      fun i => mem.dirty_bmap (bmap_start + i)
  let dirty2 := bitmap_clear mem.dirty_bmap (bmap_start + start_delta) (size / psize)
  ({ mem with dirty_bmap := dirty2 }, kernel_bitmap, bmap_start, bmap_npages)

/-- `KVM_DIRTY_GFN_F_DIRTY` (linux uapi kvm.h, BIT(0)). -/
def KVM_DIRTY_GFN_F_DIRTY : Nat := 1

/-- `KVM_DIRTY_GFN_F_RESET` (linux uapi kvm.h, BIT(1)). -/
def KVM_DIRTY_GFN_F_RESET : Nat := 2

/-- One `struct kvm_dirty_gfn` ring entry: flag word, composite slot id
(address-space id in the high 16 bits, slot index in the low 16 bits), page
offset within the slot. -/
structure DirtyGfn where
  flags : Nat
  slot : Nat
  offset : Nat
deriving DecidableEq

/-- `dirty_gfn_is_dirtied` (kvm-all.c lines 767-774): acquire-load of the
flag word, compared against DIRTY. -/
def dirty_gfn_is_dirtied (gfn : DirtyGfn) : Bool :=
  gfn.flags == KVM_DIRTY_GFN_F_DIRTY

/-- `dirty_gfn_set_collected` (kvm-all.c lines 776-795): release-store RESET
into the flag word. -/
def dirty_gfn_set_collected (gfn : DirtyGfn) : DirtyGfn :=
  { gfn with flags := KVM_DIRTY_GFN_F_RESET }

/-- The slot state `kvm_dirty_ring_mark_page` touches: the number of address
spaces, each (as, slot) pair's byte size, and the per-slot dirty bitmaps
viewed as one predicate over (as, slot, page offset). -/
structure SlotsDirtyState where
  nr_as : Nat
  memory_size : Nat → Nat → Nat
  dirty_bit : Nat → Nat → Nat → Bool

/-- `kvm_dirty_ring_mark_page` (kvm-all.c lines 746-765): bounds-checked
`set_bit` into the owning slot's bitmap; out-of-range address spaces and
offsets beyond the current slot size are silently ignored. -/
def kvm_dirty_ring_mark_page (st : SlotsDirtyState) (as_id slot_id offset : Nat) :
    SlotsDirtyState :=
  if st.nr_as ≤ as_id then st
  else if st.memory_size as_id slot_id = 0 ∨
      st.memory_size as_id slot_id / hostPageSize ≤ offset then st
  else { st with dirty_bit := fun a s o =>
          if a = as_id ∧ s = slot_id ∧ o = offset then true else st.dirty_bit a s o }

/-- The state `kvm_dirty_ring_reap_one` works on: the kernel-shared ring (a
function from ring index to entry, indices taken modulo the ring size), the
vCPU's private fetch index, and the slot bitmaps the reaper marks into. -/
structure DirtyRingState where
  ring : Nat → DirtyGfn
  fetch : Nat
  slots : SlotsDirtyState

/-- Pointwise ring update. -/
def ringUpd (r : Nat → DirtyGfn) (i : Nat) (g : DirtyGfn) : Nat → DirtyGfn :=
  fun j => if j = i then g else r j

/-- The `while (true)` walk of `kvm_dirty_ring_reap_one` (kvm-all.c lines
810-821), with explicit fuel: while the entry at `fetch % ring_size` is
dirty, mark its page, release the entry with RESET, and advance.  Returns
the ring, the marked slot state, and the count of consumed entries.
`kvm_dirty_ring_reap_one` runs it with fuel `ring_size + 1`, which the loop
can never exhaust: each consumed entry is left RESET, so after at most
`ring_size` steps the walk reaches a non-dirty entry
(`reapLoop_count_le`, `reapLoop_head_not_dirty`). -/
def reapLoop (ring_size : Nat) : Nat → (Nat → DirtyGfn) → SlotsDirtyState → Nat →
    (Nat → DirtyGfn) × SlotsDirtyState × Nat
  | 0, r, st, _ => (r, st, 0)
  | fuel + 1, r, st, fetch =>
    let cur := r (fetch % ring_size)
    if dirty_gfn_is_dirtied cur then
      let st2 := kvm_dirty_ring_mark_page st (cur.slot / 65536) (cur.slot % 65536) cur.offset
      let r2 := ringUpd r (fetch % ring_size) (dirty_gfn_set_collected cur)
      let res := reapLoop ring_size fuel r2 st2 (fetch + 1)
      (res.1, res.2.1, res.2.2 + 1)
    else (r, st, 0)

/-- `kvm_dirty_ring_reap_one` (kvm-all.c lines 801-826): walk the shared
ring from the vCPU's fetch index while entries are dirty, marking each page
into the owning slot's bitmap and releasing the entry with RESET; advance
the fetch index past the consumed entries and return their count. -/
def kvm_dirty_ring_reap_one (ring_size : Nat) (s : DirtyRingState) :
    DirtyRingState × Nat :=
  let r := reapLoop ring_size (ring_size + 1) s.ring s.slots s.fetch
  ({ ring := r.1, slots := r.2.1, fetch := s.fetch + r.2.2 }, r.2.2)

/-- errno `ESRCH`. -/
def ESRCH : Int := 3

/-- errno `ENOSPC`. -/
def ENOSPC : Int := 28

/-- errno `EINVAL`. -/
def EINVAL : Int := 22

/-- errno `ENOSYS`. -/
def ENOSYS : Int := 38

/-- `KVM_IRQ_ROUTING_IRQCHIP` (linux uapi). -/
def KVM_IRQ_ROUTING_IRQCHIP : Nat := 1

/-- `KVM_IRQ_ROUTING_MSI` (linux uapi). -/
def KVM_IRQ_ROUTING_MSI : Nat := 2

/-- One `struct kvm_irq_routing_entry`: the GSI number, the route type, and
the type-specific payload (the `u` union and `flags` collapsed into one
number; C `memcmp` equality corresponds to structural equality). -/
structure RouteEntry where
  gsi : Nat
  type : Nat
  payload : Nat
deriving DecidableEq, Inhabited

/-- The interrupt-routing state of `KVMState`: the kernel-reported GSI
capacity, the used-GSI bitmap, the route table
(`irq_routes->entries[0..nr)`), the GSIs of the dynamically cached MSI
routes (`msi_hashtab`, flattened across buckets), and the configuration
flags `kvm_direct_msi_allowed` and `kvm_gsi_direct_mapping()`. -/
structure IrqRoutingState where
  gsi_count : Nat
  used_gsi_bitmap : Nat → Bool
  irq_routes : List RouteEntry
  msi_hashtab : List Nat
  direct_msi : Bool
  direct_mapping : Bool

/-- `set_gsi` (kvm-all.c line 1812). -/
def set_gsi (s : IrqRoutingState) (gsi : Nat) : IrqRoutingState :=
  { s with used_gsi_bitmap := fun i => if i = gsi then true else s.used_gsi_bitmap i }

/-- `clear_gsi` (kvm-all.c line 1817). -/
def clear_gsi (s : IrqRoutingState) (gsi : Nat) : IrqRoutingState :=
  { s with used_gsi_bitmap := fun i => if i = gsi then false else s.used_gsi_bitmap i }

/-- `kvm_add_routing_entry` (kvm-all.c lines 1863-1885): append the entry
(the array-doubling growth is invisible at this level) and mark its GSI
used. -/
def kvm_add_routing_entry (s : IrqRoutingState) (e : RouteEntry) : IrqRoutingState :=
  set_gsi { s with irq_routes := s.irq_routes ++ [e] } e.gsi

/-- The scan of `kvm_update_routing_entry`: replace the content of the first
entry whose GSI matches (writing the same content back when `memcmp` finds
them identical gives the same table); the flag reports whether a matching
entry was found. -/
def updateFirstRoute : List RouteEntry → RouteEntry → List RouteEntry × Bool
  | [], _ => ([], false)
  | e :: es, new =>
    if e.gsi = new.gsi then (new :: es, true)
    else
      let r := updateFirstRoute es new
      (e :: r.1, r.2)

/-- `kvm_update_routing_entry` (kvm-all.c lines 1887-1909): 0 on success,
-ESRCH when no entry carries the GSI. -/
def kvm_update_routing_entry (s : IrqRoutingState) (new : RouteEntry) :
    IrqRoutingState × Int :=
  let r := updateFirstRoute s.irq_routes new
  if r.2 then ({ s with irq_routes := r.1 }, 0) else (s, -ESRCH)

/-- The body of the `for` loop of `kvm_irqchip_release_virq` (kvm-all.c
lines 1934-1940), acting on the logical table (the `nr`-prefix of the
entries array, which is all the loop ever reads or writes): at index `i`,
a matching entry is overwritten by the last entry of the prefix and the
prefix shrinks by one (`nr--; *e = entries[nr]`); the index advances every
iteration. -/
def releaseLoop (virq : Nat) (l : List RouteEntry) (i : Nat) : List RouteEntry :=
  if h : i < l.length then
    if (l.getD i default).gsi = virq then
      releaseLoop virq ((l.set i (l.getD (l.length - 1) default)).dropLast) (i + 1)
    else
      releaseLoop virq l (i + 1)
  else l
termination_by l.length - i
decreasing_by
  · simp only [List.length_dropLast, List.length_set]
    omega
  · omega

/-- `kvm_irqchip_release_virq` (kvm-all.c lines 1925-1944): swap-remove the
entries carrying `virq` from the route table, then clear the GSI's bit;
a no-op under direct GSI mapping. -/
def kvm_irqchip_release_virq (s : IrqRoutingState) (virq : Nat) : IrqRoutingState :=
  if s.direct_mapping then s
  else clear_gsi { s with irq_routes := releaseLoop virq s.irq_routes 0 } virq

/-- `kvm_flush_dynamic_msi_routes` (kvm-all.c lines 1968-1980): release the
GSI of every cached MSI route and empty the cache. -/
def kvm_flush_dynamic_msi_routes (s : IrqRoutingState) : IrqRoutingState :=
  let s2 := s.msi_hashtab.foldl (fun acc g => kvm_irqchip_release_virq acc g) s
  { s2 with msi_hashtab := [] }

/-- C `find_first_zero_bit(bitmap, size)` scanning upward from `i`, with
structural fuel (the caller passes fuel `n`, enough to reach `n` from 0);
returns `n` when every bit of `[i, n)` is set. -/
def ffzAux (b : Nat → Bool) (n : Nat) : Nat → Nat → Nat
  | 0, _ => n
  | fuel + 1, i =>
    if i < n then
      if b i then ffzAux b n fuel (i + 1) else i
    else n

/-- C `find_first_zero_bit(bitmap, size)`. -/
def find_first_zero_bit (b : Nat → Bool) (n : Nat) : Nat :=
  ffzAux b n n 0

/-- `kvm_irqchip_get_virq` (kvm-all.c lines 1982-2003): when direct MSI
injection is unsupported and the route table is full, first flush the
dynamically cached MSI routes; then return the lowest clear bit of the
used-GSI bitmap, or -ENOSPC when every in-range GSI is used. -/
def kvm_irqchip_get_virq (s : IrqRoutingState) : IrqRoutingState × Int :=
  let s2 := if s.direct_msi = false ∧ s.irq_routes.length = s.gsi_count
            then kvm_flush_dynamic_msi_routes s else s
  let next_virq := find_first_zero_bit s2.used_gsi_bitmap s2.gsi_count
  if s2.gsi_count ≤ next_virq then (s2, -ENOSPC) else (s2, (next_virq : Int))

/-- `kvm_irqchip_add_msi_route` (kvm-all.c lines 2064-2112): under direct
GSI mapping return the architecture-derived GSI with no state change;
without routing, -ENOSYS; otherwise allocate a GSI, and either release it
again when the architecture fixup fails (-EINVAL) or append the MSI route
and return the GSI.  `routing_enabled`, `fixup_fails` and `arch_gsi` are
oracles for the external collaborators. -/
def kvm_irqchip_add_msi_route (s : IrqRoutingState) (payload : Nat)
    (routing_enabled fixup_fails : Bool) (arch_gsi : Int) : IrqRoutingState × Int :=
  if s.direct_mapping then (s, arch_gsi)
  else if routing_enabled = false then (s, -ENOSYS)
  else
    let r := kvm_irqchip_get_virq s
    if r.2 < 0 then r
    else
      let virq := r.2.toNat
      if fixup_fails then (kvm_irqchip_release_virq r.1 virq, -EINVAL)
      else
        (kvm_add_routing_entry r.1
          { gsi := virq, type := KVM_IRQ_ROUTING_MSI, payload := payload }, (virq : Int))

/-- The cache-miss path of `kvm_irqchip_send_msi` (kvm-all.c lines
2035-2057) when direct MSI injection is not allowed: allocate a GSI, build
and commit the MSI route, and insert it into the hash cache. -/
def kvm_irqchip_send_msi_miss (s : IrqRoutingState) (payload : Nat) :
    IrqRoutingState × Int :=
  let r := kvm_irqchip_get_virq s
  if r.2 < 0 then r
  else
    let virq := r.2.toNat
    let s2 := kvm_add_routing_entry r.1
      { gsi := virq, type := KVM_IRQ_ROUTING_MSI, payload := payload }
    ({ s2 with msi_hashtab := s2.msi_hashtab ++ [virq] }, 0)

/-- The route-table invariant of the claim: every GSI present in the route
table is marked in the used-GSI bitmap, and no GSI appears twice. -/
def IrqInvariant (s : IrqRoutingState) : Prop :=
  (∀ e ∈ s.irq_routes, s.used_gsi_bitmap e.gsi = true) ∧
  List.Pairwise (fun a b => a.gsi ≠ b.gsi) s.irq_routes

/-- The routing-table states reachable through the dynamic routing
operations of kvm-all.c: from the freshly initialised tables
(`kvm_init_irq_routing`) by adding an MSI route through the GSI allocator
(`kvm_irqchip_add_msi_route`), sending a cache-missing MSI
(`kvm_irqchip_send_msi`), updating an existing route
(`kvm_update_routing_entry`), and releasing a route
(`kvm_irqchip_release_virq`). -/
inductive IrqReachable : IrqRoutingState → Prop where
  | init (gsi_count : Nat) (dm dmap : Bool) :
      IrqReachable { gsi_count := gsi_count, used_gsi_bitmap := fun _ => false,
                     irq_routes := [], msi_hashtab := [], direct_msi := dm,
                     direct_mapping := dmap }
  | add_msi_route (s : IrqRoutingState) (payload : Nat) (re ff : Bool) (ag : Int) :
      IrqReachable s →
      IrqReachable (kvm_irqchip_add_msi_route s payload re ff ag).1
  | send_msi (s : IrqRoutingState) (payload : Nat) :
      IrqReachable s → IrqReachable (kvm_irqchip_send_msi_miss s payload).1
  | update (s : IrqRoutingState) (e : RouteEntry) :
      IrqReachable s → IrqReachable (kvm_update_routing_entry s e).1
  | release (s : IrqRoutingState) (virq : Nat) :
      IrqReachable s → IrqReachable (kvm_irqchip_release_virq s virq)

theorem wsub64_eq_sub {a b : Nat} (hba : b ≤ a) (ha : a < U64) : wsub64 a b = a - b := by
  have hb : b < U64 := lt_of_le_of_lt hba ha
  unfold wsub64
  rw [Nat.mod_eq_of_lt ha, Nat.mod_eq_of_lt hb]
  have h1 : a + (U64 - b) = (a - b) + U64 := by omega
  rw [h1, Nat.add_mod_right, Nat.mod_eq_of_lt (by omega)]

theorem kvm_align_section_eq (ofs size : Nat)
    (hofs : ofs + hostPageSize ≤ U64) (hsize : size < U64) :
    kvm_align_section ofs size =
      (roundUpPageSpec ofs,
       if roundUpPageSpec ofs - ofs > size then 0
       else (size - (roundUpPageSpec ofs - ofs)) / hostPageSize * hostPageSize) := by
  have hU : U64 = 18446744073709551616 := by norm_num [U64]
  simp only [kvm_align_section, roundUpPageSpec, round_up64, hostPageSize] at *
  have h1 : ofs + 4096 - 1 = ofs + 4095 := by omega
  have hdm := Nat.div_add_mod (ofs + 4095) 4096
  have hmlt : (ofs + 4095) % 4096 < 4096 := Nat.mod_lt _ (by norm_num)
  rw [h1, Nat.mod_eq_of_lt (by omega)]
  have hgeo : ofs ≤ (ofs + 4095) / 4096 * 4096 := by omega
  have hlt : (ofs + 4095) / 4096 * 4096 < U64 := by omega
  rw [wsub64_eq_sub hgeo hlt]
  split
  · rfl
  · rename_i hc
    have hle : (ofs + 4095) / 4096 * 4096 - ofs ≤ size := by omega
    rw [wsub64_eq_sub hle hsize]

/-- C8: for every memory section whose start fits a 64-bit address with room
for one page of rounding (no wrap), `kvm_align_section` returns the start
rounded up to the host page size; the returned size is the remaining length
truncated down to a page multiple when the rounding delta fits, and is 0 when
the delta exceeds the section size; both results are page-aligned. -/
theorem kvm_align_section_spec (ofs size : Nat)
    (hofs : ofs + hostPageSize ≤ U64) (hsize : size < U64) :
    (kvm_align_section ofs size).1 = roundUpPageSpec ofs ∧
    (roundUpPageSpec ofs - ofs > size → (kvm_align_section ofs size).2 = 0) ∧
    (roundUpPageSpec ofs - ofs ≤ size →
      (kvm_align_section ofs size).2 =
        (size - (roundUpPageSpec ofs - ofs)) / hostPageSize * hostPageSize) ∧
    hostPageSize ∣ (kvm_align_section ofs size).1 ∧
    hostPageSize ∣ (kvm_align_section ofs size).2 := by
  rw [kvm_align_section_eq ofs size hofs hsize]
  refine ⟨rfl, fun h => by simp [if_pos h], fun h => ?_, ?_, ?_⟩
  · by_cases hgt : roundUpPageSpec ofs - ofs > size
    · omega
    · simp [if_neg hgt]
  · show hostPageSize ∣ (ofs + hostPageSize - 1) / hostPageSize * hostPageSize
    exact dvd_mul_left _ _
  · show hostPageSize ∣ _
    split
    · exact dvd_zero _
    · exact dvd_mul_left _ _

theorem kvm_align_section_spec_witness :
    (5000 + hostPageSize ≤ U64 ∧ 10000 < U64) ∧
    (kvm_align_section 5000 10000).1 = roundUpPageSpec 5000 :=
  ⟨⟨by norm_num [hostPageSize, U64], by norm_num [U64]⟩,
    (kvm_align_section_spec 5000 10000 (by norm_num [hostPageSize, U64])
      (by norm_num [U64])).1⟩

theorem and_two_xor_ne (x y : Nat) :
    (x ^^^ y) &&& 2 ≠ 0 ↔ x.testBit 1 ≠ y.testBit 1 := by
  rw [show (2 : Nat) = 2 ^ 1 from rfl, Nat.and_two_pow]
  rcases hx : x.testBit 1 <;> rcases hy : y.testBit 1 <;>
    simp [Nat.testBit_xor, hx, hy]

/-- C5 (counterexample): at a slot update that shrinks the slot to zero
(`memory_size = 0`, not new) while only the read-only flag differs from the
previous flags, the code issues a single slot-set call, not the two-step
update the claim requires. -/
theorem kvm_set_user_memory_region_shrink_counterexample :
    (kvm_set_user_memory_region_calls 0
      { slot := 0, start_addr := 0, ram := 0, flags := 0,
        old_flags := KVM_MEM_READONLY, memory_size := 0 } false).length = 1 := by
  decide

/-- C5 (amended): the kernel slot-update operation performs the two-step
update (a size-0 slot-set call, then one with the final state) exactly when
the slot is not new, its new size is nonzero, and the read-only bit of its
flags differs from the previous flags; in every other case a single slot-set
call with the final state is issued.  The final state is always the last
call. -/
theorem kvm_set_user_memory_region_calls_spec (as_id : Nat) (s : KVMSlotUpd) (isNew : Bool) :
    ((kvm_set_user_memory_region_calls as_id s isNew).length = 2 ↔
      (s.memory_size ≠ 0 ∧ isNew = false ∧ s.flags.testBit 1 ≠ s.old_flags.testBit 1)) ∧
    ((kvm_set_user_memory_region_calls as_id s isNew).length = 2 →
      (kvm_set_user_memory_region_calls as_id s isNew).head?.map
        (fun c => c.memory_size) = some 0) ∧
    ((kvm_set_user_memory_region_calls as_id s isNew).length ≠ 2 →
      (kvm_set_user_memory_region_calls as_id s isNew).length = 1) ∧
    (kvm_set_user_memory_region_calls as_id s isNew).getLast? =
      some { slot := s.slot + as_id * 65536, guest_phys_addr := s.start_addr,
             userspace_addr := s.ram, flags := s.flags, memory_size := s.memory_size } := by
  have hbit := and_two_xor_ne s.flags s.old_flags
  rw [kvm_set_user_memory_region_calls]
  by_cases hc : s.memory_size ≠ 0 ∧ isNew = false ∧
      (s.flags ^^^ s.old_flags) &&& KVM_MEM_READONLY ≠ 0
  · rw [if_pos hc]
    refine ⟨?_, fun _ => rfl, fun h => absurd rfl h, rfl⟩
    simp only [List.length_cons, List.length_singleton]
    constructor
    · intro _
      exact ⟨hc.1, hc.2.1, hbit.mp hc.2.2⟩
    · intro _
      rfl
  · rw [if_neg hc]
    refine ⟨?_, ?_, fun _ => rfl, rfl⟩
    · simp only [List.length_singleton]
      constructor
      · omega
      · intro ⟨h1, h2, h3⟩
        exact absurd ⟨h1, h2, hbit.mpr h3⟩ hc
    · intro h
      simp at h

theorem kvm_set_user_memory_region_calls_spec_witness :
    (kvm_set_user_memory_region_calls 0
      { slot := 0, start_addr := 0, ram := 0, flags := 2,
        old_flags := 0, memory_size := 4096 } false).length = 2 :=
  (kvm_set_user_memory_region_calls_spec 0
    { slot := 0, start_addr := 0, ram := 0, flags := 2,
      old_flags := 0, memory_size := 4096 } false).1.mpr (by decide)

/-- C10: the hypercall dispatcher returns 0 to the guest for every opcode
outside the handled set {13,...,19,23}, and for opcode 23 (network-device
hotplug) it returns 0 unconditionally, whatever the forwarded helper
returned. -/
theorem handle_hypercall_swallows (lock_ok : Bool) (helper : Nat → Int) (nr : Nat)
    (hnr : nr ∉ ([13, 14, 15, 16, 17, 18, 19, 23] : List Nat)) :
    handle_hypercall lock_ok helper nr = 0 ∧ handle_hypercall lock_ok helper 23 = 0 := by
  simp only [List.mem_cons, List.not_mem_nil, or_false] at hnr
  push_neg at hnr
  obtain ⟨h13, h14, h15, h16, h17, h18, h19, h23⟩ := hnr
  constructor
  · simp [handle_hypercall, h13, h14, h15, h16, h17, h18, h19, h23]
  · simp [handle_hypercall]

theorem handle_hypercall_swallows_witness :
    (42 ∉ ([13, 14, 15, 16, 17, 18, 19, 23] : List Nat)) ∧
    (handle_hypercall true (fun _ => -7) 42 = 0 ∧
      handle_hypercall true (fun _ => -7) 23 = 0) :=
  ⟨by decide, handle_hypercall_swallows true (fun _ => -7) 42 (by decide)⟩

/-- C9 (counterexample): a sync whose kernel dirty-log fetch fails with
-ENOENT on a slot whose cached bitmap has a set bit is reported successful
AND merges that stale cached bit into the global dirty state, contradicting
the claim that no dirty pages are merged in the failure cases. -/
theorem kvm_sync_enoent_merge_counterexample :
    ((kvm_physical_sync_dirty_bitmap_slot (-ENOENT) (fun _ => false)
        { start_page := 0, npages := 1, dirty_bmap := fun _ => true }
        (fun _ => false)).1.2 = true) ∧
    ((kvm_physical_sync_dirty_bitmap_slot (-ENOENT) (fun _ => false)
        { start_page := 0, npages := 1, dirty_bmap := fun _ => true }
        (fun _ => false)).2 0 = true) := by
  constructor
  · rfl
  · rfl

/-- C9 (amended): a dirty-bitmap sync whose kernel fetch fails with -ENOENT
is reported as a successful sync and merges the slot's cached bitmap, which
the kernel leaves untouched, into the global dirty state (so the sync is
logically empty exactly when the cached bitmap is clear over the slot);
every other negative kernel result is reported as a failed sync and leaves
the global dirty state unchanged. -/
theorem kvm_physical_sync_dirty_bitmap_error_spec (kernel_ret : Int)
    (kernel_bitmap : Nat → Bool) (slot : KVMSlotSync) (global : Nat → Bool) :
    (kernel_ret = -ENOENT →
      (kvm_physical_sync_dirty_bitmap_slot kernel_ret kernel_bitmap slot global).1.2 = true ∧
      (kvm_physical_sync_dirty_bitmap_slot kernel_ret kernel_bitmap slot global).1.1 = slot ∧
      ((∀ p, p < slot.npages → slot.dirty_bmap p = false) →
        ∀ a, (kvm_physical_sync_dirty_bitmap_slot kernel_ret kernel_bitmap slot global).2 a =
          global a)) ∧
    (kernel_ret < 0 → kernel_ret ≠ -ENOENT →
      (kvm_physical_sync_dirty_bitmap_slot kernel_ret kernel_bitmap slot global).1.2 = false ∧
      ∀ a, (kvm_physical_sync_dirty_bitmap_slot kernel_ret kernel_bitmap slot global).2 a =
        global a) := by
  constructor
  · intro he
    subst he
    refine ⟨rfl, rfl, ?_⟩
    intro hclean a
    show (global a ||
      (decide (slot.start_page ≤ a) && decide (a < slot.start_page + slot.npages) &&
        slot.dirty_bmap (a - slot.start_page))) = global a
    by_cases h1 : slot.start_page ≤ a
    · by_cases h2 : a < slot.start_page + slot.npages
      · rw [hclean (a - slot.start_page) (by omega)]
        simp
      · simp [h2]
    · simp [h1]
  · intro hneg hne
    have h0 : kernel_ret ≠ 0 := by omega
    constructor
    · simp only [kvm_physical_sync_dirty_bitmap_slot, kvm_slot_get_dirty_log,
        if_neg h0, if_neg hne]
      simp [h0]
    · simp only [kvm_physical_sync_dirty_bitmap_slot, kvm_slot_get_dirty_log,
        if_neg h0, if_neg hne]
      simp [h0]

theorem kvm_physical_sync_dirty_bitmap_error_spec_witness :
    ((-5 : Int) < 0 ∧ (-5 : Int) ≠ -ENOENT) ∧
    ((kvm_physical_sync_dirty_bitmap_slot (-5) (fun _ => true)
        { start_page := 0, npages := 1, dirty_bmap := fun _ => true }
        (fun _ => false)).1.2 = false ∧
      (kvm_physical_sync_dirty_bitmap_slot (-5) (fun _ => true)
        { start_page := 0, npages := 1, dirty_bmap := fun _ => true }
        (fun _ => false)).2 3 = false) := by
  have h := (kvm_physical_sync_dirty_bitmap_error_spec (-5) (fun _ => true)
    { start_page := 0, npages := 1, dirty_bmap := fun _ => true }
    (fun _ => false)).2 (by decide) (by decide)
  exact ⟨⟨by decide, by decide⟩, h.1, h.2 3⟩

/-- C7 (counterexample): a successful run call with exit reason
`KVM_EXIT_SHUTDOWN` makes the loop request a system RESET (guest-reset
cause), not a VM-shutdown transition as the claim states: the produced
transition list is `[resetRequest]` and in particular not
`[shutdownRequest]`. -/
theorem kvm_exit_shutdown_counterexample :
    kvm_cpu_exec_loop
        [{ run_ret := 0, exit_reason := KVM_EXIT_SHUTDOWN, system_event_type := 0,
           internal_error_ret := 0, arch_exit_ret := 0 }] =
      some (EXCP_INTERRUPT, [VmTransition.resetRequest]) ∧
    ¬ kvm_cpu_exec_loop
        [{ run_ret := 0, exit_reason := KVM_EXIT_SHUTDOWN, system_event_type := 0,
           internal_error_ret := 0, arch_exit_ret := 0 }] =
      some (EXCP_INTERRUPT, [VmTransition.shutdownRequest]) := by
  constructor
  · rfl
  · decide

/-- C7 (amended): whenever the kernel run call returns success with exit
reason `KVM_EXIT_SHUTDOWN`, the dispatch loop requests exactly one VM
transition, a system reset with guest-reset cause, and terminates
immediately with status `EXCP_INTERRUPT`, never touching the rest of the
run script. -/
theorem kvm_exit_shutdown_spec (o : KVMRunOutcome) (rest : List KVMRunOutcome)
    (hret : 0 ≤ o.run_ret) (hreason : o.exit_reason = KVM_EXIT_SHUTDOWN) :
    kvm_cpu_exec_loop (o :: rest) = some (EXCP_INTERRUPT, [VmTransition.resetRequest]) := by
  have hstep : kvm_cpu_exec_step o = (EXCP_INTERRUPT, [VmTransition.resetRequest]) := by
    rw [kvm_cpu_exec_step, if_neg (by omega), hreason]
    norm_num [KVM_EXIT_SHUTDOWN, KVM_EXIT_HYPERCALL, KVM_EXIT_IO, KVM_EXIT_MMIO,
      KVM_EXIT_IRQ_WINDOW_OPEN]
  rw [kvm_cpu_exec_loop, hstep]
  norm_num [EXCP_INTERRUPT]

theorem kvm_exit_shutdown_spec_witness :
    ((0 : Int) ≤ 0 ∧ KVM_EXIT_SHUTDOWN = KVM_EXIT_SHUTDOWN) ∧
    kvm_cpu_exec_loop
        [{ run_ret := 0, exit_reason := KVM_EXIT_SHUTDOWN, system_event_type := 0,
           internal_error_ret := 0, arch_exit_ret := 5 },
         { run_ret := 0, exit_reason := KVM_EXIT_IO, system_event_type := 0,
           internal_error_ret := 0, arch_exit_ret := 0 }] =
      some (EXCP_INTERRUPT, [VmTransition.resetRequest]) :=
  ⟨⟨le_refl 0, rfl⟩,
    kvm_exit_shutdown_spec
      { run_ret := 0, exit_reason := KVM_EXIT_SHUTDOWN, system_event_type := 0,
        internal_error_ret := 0, arch_exit_ret := 5 }
      [{ run_ret := 0, exit_reason := KVM_EXIT_IO, system_event_type := 0,
         internal_error_ret := 0, arch_exit_ret := 0 }] (le_refl 0) rfl⟩

/-- C3 (code bug, evaluated at the failing input): register a single active
slot, index 0, in address space 0 (one page at base gfn 8, host pointer 99).
The slot is active in the shadow arrays, but `used_memslots` — set to the
maximum slot index rather than a slot count — stays 0, so the export loop
`for (i = 0; i < used_memslots; i++)` copies nothing: the shared arrays still
read 0 after the export, leaving the active slot out. -/
theorem export_memslots_omits_highest_slot :
    ((kvm_set_phys_mem_register initShadowState 0 0 4096 32768 99).npages 0 = 1 ∧
     (kvm_set_phys_mem_register initShadowState 0 0 4096 32768 99).base_gfns 0 = 8 ∧
     (kvm_set_phys_mem_register initShadowState 0 0 4096 32768 99).as_ids 0 = 0 ∧
     (kvm_set_phys_mem_register initShadowState 0 0 4096 32768 99).used_memslots = 0) ∧
    ((export_memslots_hyperupcall (kvm_set_phys_mem_register initShadowState 0 0 4096 32768 99)
        { base_gfns := fun _ => 0, npages := fun _ => 0, userptrs := fun _ => 0 }).npages 0 = 0 ∧
     (export_memslots_hyperupcall (kvm_set_phys_mem_register initShadowState 0 0 4096 32768 99)
        { base_gfns := fun _ => 0, npages := fun _ => 0, userptrs := fun _ => 0 }).base_gfns 0 = 0 ∧
     (export_memslots_hyperupcall (kvm_set_phys_mem_register initShadowState 0 0 4096 32768 99)
        { base_gfns := fun _ => 0, npages := fun _ => 0, userptrs := fun _ => 0 }).userptrs 0 = 0) := by
  decide

/-- C4 (code bug, evaluated at the failing input): with pool object 1 having
its program slot 0 in use (handle 7) and pool object 0 fully free,
`allocate_hyperupcall_prog_slot` for object 1 returns slot 0 — a slot whose
program handle is present in object 1 — because the C body scans the slots of
object 0 (`hyperupcalls->progs`) instead of the object it was passed. -/
theorem allocate_prog_slot_ignores_object :
    allocate_hyperupcall_prog_slot
        (fun j => if j = 1 then
            { obj := some 1, links := fun _ => none,
              progs := fun i => if i = 0 then some 7 else none, maps := fun _ => none }
          else
            { obj := none, links := fun _ => none,
              progs := fun _ => none, maps := fun _ => none }) 1 = 0 ∧
    ((fun j => if j = 1 then
          ({ obj := some 1, links := fun _ => none,
             progs := fun i => if i = 0 then some 7 else none,
             maps := fun _ => none } : HyperUpCall)
        else
          { obj := none, links := fun _ => none,
            progs := fun _ => none, maps := fun _ => none }) 1).progs 0 = some 7 := by
  constructor
  · rfl
  · rfl

/-- C1: for every slot and every page-aligned clear request `(start, size)`
lying inside the slot, `kvm_log_clear_one_slot` clears exactly the bits of
the caller's original page range `[start/pagesize, (start+size)/pagesize)` in
the slot's cached dirty bitmap, and every bit outside that range is
unchanged — whether or not the request is 64-page aligned (the padded
temporary bitmap is used only for the kernel call; the cached bitmap is
intersect-cleared over the caller's original range). -/
theorem kvm_log_clear_one_slot_frame (mem : KVMSlotBitmap) (start size : Nat)
    (hs : hostPageSize ∣ start) (hz : hostPageSize ∣ size)
    (hin : start + size ≤ mem.memory_size) :
    (∀ p, start / hostPageSize ≤ p → p < (start + size) / hostPageSize →
      (kvm_log_clear_one_slot mem start size).1.dirty_bmap p = false) ∧
    (∀ p, p < start / hostPageSize ∨ (start + size) / hostPageSize ≤ p →
      (kvm_log_clear_one_slot mem start size).1.dirty_bmap p = mem.dirty_bmap p) := by
  obtain ⟨m, rfl⟩ := hs
  obtain ⟨n, rfl⟩ := hz
  have hP : hostPageSize = 4096 := rfl
  have hA : kvmClearLogAlign = 262144 := rfl
  constructor
  · intro p h1 h2
    simp only [kvm_log_clear_one_slot, bitmap_clear, hP, hA] at h1 h2 ⊢
    split
    · rfl
    · rename_i hcond
      exfalso
      omega
  · intro p hp
    simp only [kvm_log_clear_one_slot, bitmap_clear, hP, hA] at hp ⊢
    split
    · rename_i hcond
      exfalso
      rcases hp with hp | hp <;> omega
    · rfl

theorem kvm_log_clear_one_slot_frame_witness :
    ((hostPageSize ∣ 12288) ∧ (hostPageSize ∣ 8192) ∧ 12288 + 8192 ≤ 524288) ∧
    ((kvm_log_clear_one_slot { memory_size := 524288, dirty_bmap := fun _ => true }
        12288 8192).1.dirty_bmap 3 = false ∧
     (kvm_log_clear_one_slot { memory_size := 524288, dirty_bmap := fun _ => true }
        12288 8192).1.dirty_bmap 5 = true) := by
  have h := kvm_log_clear_one_slot_frame
    { memory_size := 524288, dirty_bmap := fun _ => true } 12288 8192
    ⟨3, rfl⟩ ⟨2, rfl⟩ (by decide)
  refine ⟨⟨⟨3, rfl⟩, ⟨2, rfl⟩, by decide⟩, h.1 3 (by decide) (by decide), ?_⟩
  exact (h.2 5 (Or.inr (by decide))).trans rfl

theorem reapLoop_flags_reset_mono (rs fuel : Nat) :
    ∀ (r : Nat → DirtyGfn) (st : SlotsDirtyState) (f i : Nat),
      (r i).flags = KVM_DIRTY_GFN_F_RESET →
      ((reapLoop rs fuel r st f).1 i).flags = KVM_DIRTY_GFN_F_RESET := by
  induction fuel with
  | zero =>
    intro r st f i h
    simpa [reapLoop] using h
  | succ fuel ih =>
    intro r st f i h
    by_cases hd : dirty_gfn_is_dirtied (r (f % rs)) = true
    · simp only [reapLoop, hd, if_true]
      apply ih
      unfold ringUpd dirty_gfn_set_collected
      by_cases hi : i = f % rs <;> simp [hi, h]
    · rw [Bool.not_eq_true] at hd
      simpa [reapLoop, hd] using h

theorem reapLoop_count_le (rs : Nat) (hrs : 0 < rs) (fuel : Nat) :
    ∀ (r : Nat → DirtyGfn) (st : SlotsDirtyState) (f0 j : Nat),
      j ≤ rs →
      (∀ i, i < j → (r ((f0 + i) % rs)).flags = KVM_DIRTY_GFN_F_RESET) →
      (reapLoop rs fuel r st (f0 + j)).2.2 + j ≤ rs := by
  induction fuel with
  | zero =>
    intro r st f0 j hj _
    simpa [reapLoop] using hj
  | succ fuel ih =>
    intro r st f0 j hj hinv
    rcases Nat.lt_or_ge j rs with hlt | hge
    · by_cases hd : dirty_gfn_is_dirtied (r ((f0 + j) % rs)) = true
      · simp only [reapLoop, hd, if_true]
        have hinv2 : ∀ i, i < j + 1 →
            ((ringUpd r ((f0 + j) % rs)
                (dirty_gfn_set_collected (r ((f0 + j) % rs)))) ((f0 + i) % rs)).flags
              = KVM_DIRTY_GFN_F_RESET := by
          intro i hi
          unfold ringUpd
          by_cases he : (f0 + i) % rs = (f0 + j) % rs
          · simp [he, dirty_gfn_set_collected]
          · rcases Nat.lt_or_ge i j with h | h
            · simpa [he] using hinv i h
            · have hieq : i = j := by omega
              exact absurd (by rw [hieq]) he
        have h2 := ih (ringUpd r ((f0 + j) % rs)
            (dirty_gfn_set_collected (r ((f0 + j) % rs))))
          (kvm_dirty_ring_mark_page st ((r ((f0 + j) % rs)).slot / 65536)
            ((r ((f0 + j) % rs)).slot % 65536) (r ((f0 + j) % rs)).offset)
          f0 (j + 1) (by omega) hinv2
        have e : f0 + j + 1 = f0 + (j + 1) := by omega
        rw [e]
        omega
      · rw [Bool.not_eq_true] at hd
        simp [reapLoop, hd]
        omega
    · have hjeq : j = rs := le_antisymm hj hge
      have h0 : (r ((f0 + j) % rs)).flags = KVM_DIRTY_GFN_F_RESET := by
        have hi0 := hinv 0 (by omega)
        rw [hjeq, Nat.add_mod_right]
        simpa using hi0
      have hd : dirty_gfn_is_dirtied (r ((f0 + j) % rs)) = false := by
        simp [dirty_gfn_is_dirtied, h0, KVM_DIRTY_GFN_F_RESET, KVM_DIRTY_GFN_F_DIRTY]
      simp [reapLoop, hd]
      omega

theorem reapLoop_head_not_dirty (rs fuel : Nat) :
    ∀ (r : Nat → DirtyGfn) (st : SlotsDirtyState) (f : Nat),
      (reapLoop rs fuel r st f).2.2 < fuel →
      dirty_gfn_is_dirtied
        ((reapLoop rs fuel r st f).1 ((f + (reapLoop rs fuel r st f).2.2) % rs)) = false := by
  induction fuel with
  | zero =>
    intro r st f h
    simp [reapLoop] at h
  | succ fuel ih =>
    intro r st f h
    by_cases hd : dirty_gfn_is_dirtied (r (f % rs)) = true
    · simp only [reapLoop, hd, if_true] at h ⊢
      have h2 := ih (ringUpd r (f % rs) (dirty_gfn_set_collected (r (f % rs))))
        (kvm_dirty_ring_mark_page st ((r (f % rs)).slot / 65536)
          ((r (f % rs)).slot % 65536) (r (f % rs)).offset)
        (f + 1) (by omega)
      have e : f + ((reapLoop rs fuel
          (ringUpd r (f % rs) (dirty_gfn_set_collected (r (f % rs))))
          (kvm_dirty_ring_mark_page st ((r (f % rs)).slot / 65536)
            ((r (f % rs)).slot % 65536) (r (f % rs)).offset)
          (f + 1)).2.2 + 1)
          = (f + 1) + (reapLoop rs fuel
          (ringUpd r (f % rs) (dirty_gfn_set_collected (r (f % rs))))
          (kvm_dirty_ring_mark_page st ((r (f % rs)).slot / 65536)
            ((r (f % rs)).slot % 65536) (r (f % rs)).offset)
          (f + 1)).2.2 := by omega
      rw [e]
      exact h2
    · rw [Bool.not_eq_true] at hd
      simp [reapLoop, hd]

theorem reapLoop_consumed_reset (rs fuel : Nat) :
    ∀ (r : Nat → DirtyGfn) (st : SlotsDirtyState) (f j : Nat),
      j < (reapLoop rs fuel r st f).2.2 →
      ((reapLoop rs fuel r st f).1 ((f + j) % rs)).flags = KVM_DIRTY_GFN_F_RESET := by
  induction fuel with
  | zero =>
    intro r st f j h
    simp [reapLoop] at h
  | succ fuel ih =>
    intro r st f j h
    by_cases hd : dirty_gfn_is_dirtied (r (f % rs)) = true
    · simp only [reapLoop, hd, if_true] at h ⊢
      rcases Nat.eq_zero_or_pos j with rfl | hj
      · have hr2 : ((ringUpd r (f % rs) (dirty_gfn_set_collected (r (f % rs))))
            (f % rs)).flags = KVM_DIRTY_GFN_F_RESET := by
          simp [ringUpd, dirty_gfn_set_collected]
        have hm := reapLoop_flags_reset_mono rs fuel
          (ringUpd r (f % rs) (dirty_gfn_set_collected (r (f % rs))))
          (kvm_dirty_ring_mark_page st ((r (f % rs)).slot / 65536)
            ((r (f % rs)).slot % 65536) (r (f % rs)).offset)
          (f + 1) (f % rs) hr2
        simpa using hm
      · have h2 := ih (ringUpd r (f % rs) (dirty_gfn_set_collected (r (f % rs))))
          (kvm_dirty_ring_mark_page st ((r (f % rs)).slot / 65536)
            ((r (f % rs)).slot % 65536) (r (f % rs)).offset)
          (f + 1) (j - 1) (by omega)
        have e : (f + 1) + (j - 1) = f + j := by omega
        rw [e] at h2
        exact h2
    · rw [Bool.not_eq_true] at hd
      simp [reapLoop, hd] at h

/-- C2: ring reap is idempotent when the kernel writes no new entries: one
call to `kvm_dirty_ring_reap_one` advances the fetch index by exactly the
consumed count, leaves every consumed entry's flag word RESET, and an
immediately following second call consumes zero entries and leaves the state
unchanged — so of two consecutive calls only the first can return a nonzero
count. -/
theorem kvm_dirty_ring_reap_one_idempotent (ring_size : Nat) (s : DirtyRingState)
    (hrs : 0 < ring_size) :
    (kvm_dirty_ring_reap_one ring_size s).1.fetch
        = s.fetch + (kvm_dirty_ring_reap_one ring_size s).2 ∧
    (∀ j, j < (kvm_dirty_ring_reap_one ring_size s).2 →
      ((kvm_dirty_ring_reap_one ring_size s).1.ring ((s.fetch + j) % ring_size)).flags
        = KVM_DIRTY_GFN_F_RESET) ∧
    (kvm_dirty_ring_reap_one ring_size (kvm_dirty_ring_reap_one ring_size s).1).2 = 0 ∧
    (kvm_dirty_ring_reap_one ring_size (kvm_dirty_ring_reap_one ring_size s).1).1
      = (kvm_dirty_ring_reap_one ring_size s).1 := by
  have hcnt : (reapLoop ring_size (ring_size + 1) s.ring s.slots s.fetch).2.2 ≤ ring_size := by
    have h := reapLoop_count_le ring_size hrs (ring_size + 1) s.ring s.slots s.fetch 0
      (by omega) (by intro i hi; exact absurd hi (Nat.not_lt_zero i))
    simpa using h
  have hhd := reapLoop_head_not_dirty ring_size (ring_size + 1) s.ring s.slots s.fetch
    (by omega)
  refine ⟨rfl, ?_, ?_, ?_⟩
  · intro j hj
    exact reapLoop_consumed_reset ring_size (ring_size + 1) s.ring s.slots s.fetch j hj
  · simp only [kvm_dirty_ring_reap_one]
    rw [reapLoop]
    simp [hhd]
  · simp only [kvm_dirty_ring_reap_one]
    rw [reapLoop]
    simp [hhd]

theorem kvm_dirty_ring_reap_one_idempotent_witness :
    0 < 4 ∧
    (kvm_dirty_ring_reap_one 4
      (kvm_dirty_ring_reap_one 4
        { ring := fun i => if i = 0 then { flags := 1, slot := 0, offset := 0 }
                   else if i = 1 then { flags := 1, slot := 0, offset := 1 }
                   else { flags := 2, slot := 0, offset := 0 },
          fetch := 0,
          slots := { nr_as := 1, memory_size := fun _ _ => 8192,
                     dirty_bit := fun _ _ _ => false } }).1).2 = 0 :=
  ⟨by decide,
    (kvm_dirty_ring_reap_one_idempotent 4
      { ring := fun i => if i = 0 then { flags := 1, slot := 0, offset := 0 }
                 else if i = 1 then { flags := 1, slot := 0, offset := 1 }
                 else { flags := 2, slot := 0, offset := 0 },
        fetch := 0,
        slots := { nr_as := 1, memory_size := fun _ _ => 8192,
                   dirty_bit := fun _ _ _ => false } } (by decide)).2.2.1⟩

theorem set_last_dropLast_perm (l : List RouteEntry) (i : Nat) (h : i < l.length) :
    List.Perm ((l.set i (l.getD (l.length - 1) default)).dropLast) (l.eraseIdx i) := by
  have hne : l ≠ [] := List.ne_nil_of_length_pos (by omega)
  have hb : l.getD (l.length - 1) default = l.getLast hne := by
    rw [List.getLast_eq_getElem, List.getD_eq_getElem?_getD,
      List.getElem?_eq_getElem (show l.length - 1 < l.length by omega)]
    rfl
  rw [hb, List.set_eq_take_cons_drop _ h, List.eraseIdx_eq_take_drop_succ,
    List.dropLast_append_cons]
  apply List.Perm.append_left
  by_cases hx : l.drop (i + 1) = []
  · rw [hx]
    simp
  · have hlast : l.getLast hne = (l.drop (i + 1)).getLast hx := (List.getLast_drop hx).symm
    rw [List.dropLast_cons_of_ne_nil hx, hlast]
    conv_rhs => rw [← List.dropLast_concat_getLast hx]
    exact (List.perm_append_singleton _ _).symm

theorem countP_gsi_le_one_of_pairwise (l : List RouteEntry) (virq : Nat)
    (hp : List.Pairwise (fun a b => a.gsi ≠ b.gsi) l) :
    l.countP (fun e => e.gsi == virq) ≤ 1 := by
  induction l with
  | nil => simp
  | cons e es ih =>
    rcases List.pairwise_cons.mp hp with ⟨hhd, htl⟩
    rw [List.countP_cons]
    by_cases he : e.gsi = virq
    · have h0 : es.countP (fun x => x.gsi == virq) = 0 := by
        rw [List.countP_eq_zero]
        intro a ha hc
        rw [beq_iff_eq] at hc
        exact (hhd a ha) (by rw [he, hc])
      simp [h0, he]
    · have hf : (e.gsi == virq) = false := by simp [he]
      simp only [hf, if_false, Nat.add_zero]
      exact ih htl

theorem releaseLoop_spec (virq : Nat) (l : List RouteEntry) (i : Nat) :
    l.countP (fun e => e.gsi == virq) ≤ 1 →
    (∀ j (hj : j < l.length), j < i → (l.get ⟨j, hj⟩).gsi ≠ virq) →
    List.Subperm (releaseLoop virq l i) l ∧
      ∀ e ∈ releaseLoop virq l i, e.gsi ≠ virq := by
  induction l, i using releaseLoop.induct virq with
  | case1 l i h hmatch ih =>
    intro hc hinv
    have hgd : l.getD i default = l.get ⟨i, h⟩ := by
      rw [List.getD_eq_getElem?_getD, List.getElem?_eq_getElem h]
      rfl
    have hperm := set_last_dropLast_perm l i h
    have hsubl : List.Subperm ((l.set i (l.getD (l.length - 1) default)).dropLast) l :=
      ⟨l.eraseIdx i, hperm.symm, List.eraseIdx_sublist l i⟩
    have hsplit : l = l.take i ++ l.get ⟨i, h⟩ :: l.drop (i + 1) := by
      conv_lhs => rw [← List.take_append_drop (i + 1) l]
      rw [List.take_succ, List.getElem?_eq_getElem h]
      simp
    have hcnt0 : ((l.set i (l.getD (l.length - 1) default)).dropLast).countP
        (fun e => e.gsi == virq) = 0 := by
      rw [List.Perm.countP_eq _ hperm]
      have hl : l.countP (fun e => e.gsi == virq)
          = (l.eraseIdx i).countP (fun e => e.gsi == virq) + 1 := by
        conv_lhs => rw [hsplit]
        rw [List.eraseIdx_eq_take_drop_succ, List.countP_append, List.countP_append,
          List.countP_cons]
        have hm : ((l.get ⟨i, h⟩).gsi == virq) = true := by
          rw [beq_iff_eq, ← hgd]
          exact hmatch
        simp only [hm, if_true]
        omega
      omega
    have hno : ∀ e ∈ (l.set i (l.getD (l.length - 1) default)).dropLast, e.gsi ≠ virq := by
      intro e he hee
      have h2 := List.countP_eq_zero.mp hcnt0 e he
      apply h2
      rw [beq_iff_eq]
      exact hee
    obtain ⟨hs2, hr2⟩ := ih (by omega) (fun j hj _ => hno _ (List.get_mem _ _ hj))
    have hunf : releaseLoop virq l i
        = releaseLoop virq ((l.set i (l.getD (l.length - 1) default)).dropLast) (i + 1) := by
      rw [releaseLoop]
      rw [dif_pos h, if_pos hmatch]
    rw [hunf]
    exact ⟨hs2.trans hsubl, hr2⟩
  | case2 l i h hmatch ih =>
    intro hc hinv
    have hunf : releaseLoop virq l i = releaseLoop virq l (i + 1) := by
      rw [releaseLoop]
      rw [dif_pos h, if_neg hmatch]
    rw [hunf]
    refine ih hc ?_
    intro j hj hji
    rcases Nat.lt_or_ge j i with hlt | hge
    · exact hinv j hj hlt
    · have hje : j = i := by omega
      subst hje
      intro hcon
      apply hmatch
      rw [show l.getD j default = l.get ⟨j, hj⟩ from by
        rw [List.getD_eq_getElem?_getD, List.getElem?_eq_getElem hj]; rfl]
      exact hcon
  | case3 l i h =>
    intro hc hinv
    have hunf : releaseLoop virq l i = l := by
      rw [releaseLoop]
      rw [dif_neg h]
    rw [hunf]
    refine ⟨List.Subperm.refl l, ?_⟩
    intro e he
    obtain ⟨j, hje⟩ := List.mem_iff_get.mp he
    rw [← hje]
    exact hinv j.1 j.2 (by omega)

theorem irqInvariant_release (s : IrqRoutingState) (virq : Nat)
    (hInv : IrqInvariant s) : IrqInvariant (kvm_irqchip_release_virq s virq) := by
  unfold kvm_irqchip_release_virq
  split
  · exact hInv
  · obtain ⟨hbm, hpw⟩ := hInv
    have hc := countP_gsi_le_one_of_pairwise s.irq_routes virq hpw
    obtain ⟨hsub, hno⟩ := releaseLoop_spec virq s.irq_routes 0 hc
      (fun j hj hji => absurd hji (Nat.not_lt_zero j))
    constructor
    · intro e he
      have hmem : e ∈ s.irq_routes := hsub.subset he
      have hnev : e.gsi ≠ virq := hno e he
      show (if e.gsi = virq then false else s.used_gsi_bitmap e.gsi) = true
      rw [if_neg hnev]
      exact hbm e hmem
    · obtain ⟨t, hperm, hsubl⟩ := hsub
      exact (List.Perm.pairwise_iff (fun h => Ne.symm h) hperm).mp
        (List.Pairwise.sublist hsubl hpw)

theorem updateFirstRoute_map_gsi (new : RouteEntry) (l : List RouteEntry) :
    ((updateFirstRoute l new).1).map (fun e => e.gsi) = l.map (fun e => e.gsi) := by
  induction l with
  | nil => rfl
  | cons e es ih =>
    by_cases hc : e.gsi = new.gsi
    · simp [updateFirstRoute, hc]
    · simp [updateFirstRoute, hc, ih]

theorem irqInvariant_update (s : IrqRoutingState) (new : RouteEntry)
    (hInv : IrqInvariant s) : IrqInvariant (kvm_update_routing_entry s new).1 := by
  obtain ⟨hbm, hpw⟩ := hInv
  unfold kvm_update_routing_entry
  dsimp only
  split
  · have hmap := updateFirstRoute_map_gsi new s.irq_routes
    constructor
    · intro e he
      have h1 : e.gsi ∈ ((updateFirstRoute s.irq_routes new).1).map (fun e => e.gsi) :=
        List.mem_map_of_mem _ he
      rw [hmap] at h1
      obtain ⟨y, hy, hye⟩ := List.mem_map.mp h1
      show s.used_gsi_bitmap e.gsi = true
      rw [← hye]
      exact hbm y hy
    · have h1 : (s.irq_routes.map (fun e => e.gsi)).Pairwise (fun a b => a ≠ b) :=
        List.pairwise_map.mpr hpw
      rw [← hmap] at h1
      exact List.pairwise_map.mp h1
  · exact ⟨hbm, hpw⟩

theorem irqInvariant_foldl_release (gs : List Nat) :
    ∀ s, IrqInvariant s →
      IrqInvariant (gs.foldl (fun acc g => kvm_irqchip_release_virq acc g) s) := by
  induction gs with
  | nil => intro s h; exact h
  | cons g gs ih => intro s h; exact ih _ (irqInvariant_release s g h)

theorem irqInvariant_flush (s : IrqRoutingState) (hInv : IrqInvariant s) :
    IrqInvariant (kvm_flush_dynamic_msi_routes s) :=
  irqInvariant_foldl_release s.msi_hashtab s hInv

theorem irqInvariant_get_virq (s : IrqRoutingState) (hInv : IrqInvariant s) :
    IrqInvariant (kvm_irqchip_get_virq s).1 := by
  unfold kvm_irqchip_get_virq
  by_cases hf : s.direct_msi = false ∧ s.irq_routes.length = s.gsi_count
  · simp only [if_pos hf]
    split
    · exact irqInvariant_flush s hInv
    · exact irqInvariant_flush s hInv
  · simp only [if_neg hf]
    split
    · exact hInv
    · exact hInv

theorem irqInvariant_add_routing_entry (s : IrqRoutingState) (e : RouteEntry)
    (hInv : IrqInvariant s) (hfresh : s.used_gsi_bitmap e.gsi = false) :
    IrqInvariant (kvm_add_routing_entry s e) := by
  obtain ⟨hbm, hpw⟩ := hInv
  constructor
  · intro x hx
    show (if x.gsi = e.gsi then true else s.used_gsi_bitmap x.gsi) = true
    by_cases hxe : x.gsi = e.gsi
    · rw [if_pos hxe]
    · rw [if_neg hxe]
      rcases List.mem_append.mp hx with hx1 | hx1
      · exact hbm x hx1
      · rw [List.mem_singleton] at hx1
        exact absurd (congrArg RouteEntry.gsi hx1) hxe
  · show (s.irq_routes ++ [e]).Pairwise (fun a b => a.gsi ≠ b.gsi)
    rw [List.pairwise_append]
    refine ⟨hpw, List.pairwise_singleton _ _, ?_⟩
    intro a ha b hb
    rw [List.mem_singleton] at hb
    subst hb
    intro hc
    rw [← hc] at hfresh
    rw [hbm a ha] at hfresh
    exact Bool.noConfusion hfresh

theorem ffzAux_spec (b : Nat → Bool) (n : Nat) :
    ∀ fuel i, n ≤ fuel + i →
      (i ≤ n → i ≤ ffzAux b n fuel i) ∧
      ffzAux b n fuel i ≤ n ∧
      (∀ j, i ≤ j → j < ffzAux b n fuel i → b j = true) ∧
      (ffzAux b n fuel i < n → b (ffzAux b n fuel i) = false) := by
  intro fuel
  induction fuel with
  | zero =>
    intro i hni
    show (i ≤ n → i ≤ n) ∧ n ≤ n ∧ (∀ j, i ≤ j → j < n → b j = true) ∧
      (n < n → b n = false)
    exact ⟨fun hin => hin, le_refl n, fun j hij hjn => absurd hjn (by omega),
      fun hlt => absurd hlt (lt_irrefl n)⟩
  | succ fuel ih =>
    intro i hni
    by_cases h : i < n
    · by_cases hb : b i = true
      · have hunf : ffzAux b n (fuel + 1) i = ffzAux b n fuel (i + 1) := by
          show (if i < n then if b i then ffzAux b n fuel (i + 1) else i else n)
            = ffzAux b n fuel (i + 1)
          rw [if_pos h, if_pos hb]
        obtain ⟨ih1, ih2, ih3, ih4⟩ := ih (i + 1) (by omega)
        rw [hunf]
        refine ⟨fun _ => ?_, ih2, ?_, ih4⟩
        · have h2 := ih1 (by omega)
          omega
        · intro j hij hjlt
          rcases Nat.eq_or_lt_of_le hij with hji | hlt
          · rw [← hji]
            exact hb
          · exact ih3 j (by omega) hjlt
      · have hunf : ffzAux b n (fuel + 1) i = i := by
          show (if i < n then if b i then ffzAux b n fuel (i + 1) else i else n) = i
          rw [if_pos h, if_neg hb]
        rw [hunf]
        rw [Bool.not_eq_true] at hb
        exact ⟨fun _ => le_refl i, by omega, fun j hij hjlt => absurd hjlt (by omega),
          fun _ => hb⟩
    · have hunf : ffzAux b n (fuel + 1) i = n := by
        show (if i < n then if b i then ffzAux b n fuel (i + 1) else i else n) = n
        rw [if_neg h]
      rw [hunf]
      exact ⟨fun hin => hin, le_refl n, fun j hij hjn => absurd hjn (by omega),
        fun hlt => absurd hlt (lt_irrefl n)⟩

theorem find_first_zero_bit_spec (b : Nat → Bool) (n : Nat) :
    find_first_zero_bit b n ≤ n ∧
    (∀ j, j < find_first_zero_bit b n → b j = true) ∧
    (find_first_zero_bit b n < n → b (find_first_zero_bit b n) = false) := by
  obtain ⟨_, h2, h3, h4⟩ := ffzAux_spec b n n 0 (by omega)
  exact ⟨h2, fun j hj => h3 j (Nat.zero_le j) hj, h4⟩

theorem kvm_irqchip_get_virq_cases (s : IrqRoutingState) :
    (∃ v : Nat, (kvm_irqchip_get_virq s).2 = (v : Int) ∧
      v < (kvm_irqchip_get_virq s).1.gsi_count ∧
      (kvm_irqchip_get_virq s).1.used_gsi_bitmap v = false ∧
      (∀ j, j < v → (kvm_irqchip_get_virq s).1.used_gsi_bitmap j = true)) ∨
    ((kvm_irqchip_get_virq s).2 = -ENOSPC ∧
      ∀ j, j < (kvm_irqchip_get_virq s).1.gsi_count →
        (kvm_irqchip_get_virq s).1.used_gsi_bitmap j = true) := by
  unfold kvm_irqchip_get_virq
  dsimp only
  set s2 := if s.direct_msi = false ∧ s.irq_routes.length = s.gsi_count
    then kvm_flush_dynamic_msi_routes s else s with hs2
  obtain ⟨hf1, hf2, hf3⟩ := find_first_zero_bit_spec s2.used_gsi_bitmap s2.gsi_count
  split
  · rename_i hle
    right
    refine ⟨rfl, ?_⟩
    dsimp only
    intro j hj
    exact hf2 j (by omega)
  · rename_i hgt
    left
    refine ⟨find_first_zero_bit s2.used_gsi_bitmap s2.gsi_count, rfl, ?_, ?_, ?_⟩
    · dsimp only
      omega
    · exact hf3 (by omega)
    · dsimp only
      exact fun j hj => hf2 j hj

theorem irqInvariant_add_msi_route (s : IrqRoutingState) (payload : Nat)
    (re ff : Bool) (ag : Int) (hInv : IrqInvariant s) :
    IrqInvariant (kvm_irqchip_add_msi_route s payload re ff ag).1 := by
  unfold kvm_irqchip_add_msi_route
  split
  · exact hInv
  · split
    · exact hInv
    · dsimp only
      split
      · exact irqInvariant_get_virq s hInv
      · rename_i hng
        split
        · exact irqInvariant_release _ _ (irqInvariant_get_virq s hInv)
        · rcases kvm_irqchip_get_virq_cases s with ⟨v, hv, hvc, hvb, _⟩ | ⟨he, _⟩
          · apply irqInvariant_add_routing_entry _ _ (irqInvariant_get_virq s hInv)
            show (kvm_irqchip_get_virq s).1.used_gsi_bitmap
              ((kvm_irqchip_get_virq s).2.toNat) = false
            rw [hv, Int.toNat_natCast]
            exact hvb
          · rw [he] at hng
            exact absurd (by decide) hng

theorem irqInvariant_send_msi_miss (s : IrqRoutingState) (payload : Nat)
    (hInv : IrqInvariant s) :
    IrqInvariant (kvm_irqchip_send_msi_miss s payload).1 := by
  unfold kvm_irqchip_send_msi_miss
  dsimp only
  split
  · exact irqInvariant_get_virq s hInv
  · rename_i hng
    rcases kvm_irqchip_get_virq_cases s with ⟨v, hv, hvc, hvb, _⟩ | ⟨he, _⟩
    · have h2 : IrqInvariant (kvm_add_routing_entry (kvm_irqchip_get_virq s).1
          { gsi := (kvm_irqchip_get_virq s).2.toNat, type := KVM_IRQ_ROUTING_MSI,
            payload := payload }) := by
        apply irqInvariant_add_routing_entry _ _ (irqInvariant_get_virq s hInv)
        show (kvm_irqchip_get_virq s).1.used_gsi_bitmap
          ((kvm_irqchip_get_virq s).2.toNat) = false
        rw [hv, Int.toNat_natCast]
        exact hvb
      exact h2
    · rw [he] at hng
      exact absurd (by decide) hng

theorem irqReachable_invariant (s : IrqRoutingState) (h : IrqReachable s) :
    IrqInvariant s := by
  induction h with
  | init gsi_count dm dmap => exact ⟨by intro e he; exact absurd he (List.not_mem_nil e), List.Pairwise.nil⟩
  | add_msi_route s payload re ff ag _ ih => exact irqInvariant_add_msi_route s payload re ff ag ih
  | send_msi s payload _ ih => exact irqInvariant_send_msi_miss s payload ih
  | update s e _ ih => exact irqInvariant_update s e ih
  | release s virq _ ih => exact irqInvariant_release s virq ih

/-- C6: for every state reachable through the dynamic routing operations,
(a) every GSI present in the route table is marked in the used-GSI bitmap
and appears at most once; (b) `kvm_irqchip_get_virq` never returns a GSI
marked used or present in the table — on success it returns the lowest
clear bit, and it fails with -ENOSPC exactly with every in-range GSI used;
(c) `kvm_irqchip_release_virq` clears the released GSI's bit, and when that
GSI is the lowest clear bit (and no MSI-cache flush intervenes) the
immediately following allocation returns the same GSI. -/
theorem kvm_irqchip_gsi_invariants (s : IrqRoutingState) (hreach : IrqReachable s) :
    ((∀ e ∈ s.irq_routes, s.used_gsi_bitmap e.gsi = true) ∧
      List.Pairwise (fun a b => a.gsi ≠ b.gsi) s.irq_routes) ∧
    (∀ v : Nat, (kvm_irqchip_get_virq s).2 = (v : Int) →
      v < (kvm_irqchip_get_virq s).1.gsi_count ∧
      (kvm_irqchip_get_virq s).1.used_gsi_bitmap v = false ∧
      (∀ j, j < v → (kvm_irqchip_get_virq s).1.used_gsi_bitmap j = true) ∧
      (∀ e ∈ (kvm_irqchip_get_virq s).1.irq_routes, e.gsi ≠ v)) ∧
    ((kvm_irqchip_get_virq s).2 = -ENOSPC →
      ∀ j, j < (kvm_irqchip_get_virq s).1.gsi_count →
        (kvm_irqchip_get_virq s).1.used_gsi_bitmap j = true) ∧
    (∀ g, g < s.gsi_count → s.direct_mapping = false →
      (kvm_irqchip_release_virq s g).used_gsi_bitmap g = false ∧
      ((∀ j, j < g → (kvm_irqchip_release_virq s g).used_gsi_bitmap j = true) →
        (s.direct_msi = true ∨
          (kvm_irqchip_release_virq s g).irq_routes.length ≠ s.gsi_count) →
        (kvm_irqchip_get_virq (kvm_irqchip_release_virq s g)).2 = (g : Int))) := by
  have hInv := irqReachable_invariant s hreach
  have hInv2 := irqInvariant_get_virq s hInv
  refine ⟨hInv, ?_, ?_, ?_⟩
  · intro v hv
    rcases kvm_irqchip_get_virq_cases s with ⟨v0, hv0, hc, hb, hlow⟩ | ⟨he, _⟩
    · have hvv : v = v0 := by
        rw [hv] at hv0
        exact_mod_cast hv0
      subst hvv
      refine ⟨hc, hb, hlow, ?_⟩
      intro e he hev
      have h2 := hInv2.1 e he
      rw [hev, hb] at h2
      exact Bool.noConfusion h2
    · exfalso
      rw [hv] at he
      have h3 : (0 : Int) ≤ (v : Int) := Int.natCast_nonneg v
      rw [he] at h3
      norm_num [ENOSPC] at h3
  · intro he j hj
    rcases kvm_irqchip_get_virq_cases s with ⟨v0, hv0, _, _, _⟩ | ⟨_, hall⟩
    · exfalso
      rw [hv0] at he
      have h3 : (0 : Int) ≤ (v0 : Int) := Int.natCast_nonneg v0
      rw [he] at h3
      norm_num [ENOSPC] at h3
    · exact hall j hj
  · intro g hg hdm
    have hrel : kvm_irqchip_release_virq s g
        = clear_gsi { s with irq_routes := releaseLoop g s.irq_routes 0 } g := by
      unfold kvm_irqchip_release_virq
      rw [if_neg (by simp [hdm])]
    have hbit : (kvm_irqchip_release_virq s g).used_gsi_bitmap g = false := by
      rw [hrel]
      show (if g = g then false else s.used_gsi_bitmap g) = false
      rw [if_pos rfl]
    refine ⟨hbit, ?_⟩
    intro hlow hnf
    have htc : (kvm_irqchip_release_virq s g).gsi_count = s.gsi_count := by
      rw [hrel]
      rfl
    have htm : (kvm_irqchip_release_virq s g).direct_msi = s.direct_msi := by
      rw [hrel]
      rfl
    unfold kvm_irqchip_get_virq
    dsimp only
    have hcond : ¬((kvm_irqchip_release_virq s g).direct_msi = false ∧
        (kvm_irqchip_release_virq s g).irq_routes.length
          = (kvm_irqchip_release_virq s g).gsi_count) := by
      intro hand
      rcases hnf with h3 | h3
      · rw [htm, h3] at hand
        exact Bool.noConfusion hand.1
      · rw [htc] at hand
        exact h3 hand.2
    rw [if_neg hcond]
    obtain ⟨hf1, hf2, hf3⟩ := find_first_zero_bit_spec
      (kvm_irqchip_release_virq s g).used_gsi_bitmap
      (kvm_irqchip_release_virq s g).gsi_count
    have hffz : find_first_zero_bit (kvm_irqchip_release_virq s g).used_gsi_bitmap
        (kvm_irqchip_release_virq s g).gsi_count = g := by
      rcases Nat.lt_trichotomy
        (find_first_zero_bit (kvm_irqchip_release_virq s g).used_gsi_bitmap
          (kvm_irqchip_release_virq s g).gsi_count) g
        with hlt | heq | hgt
      · exfalso
        have h4 := hlow _ hlt
        have h5 := hf3 (by omega)
        rw [h4] at h5
        exact Bool.noConfusion h5
      · exact heq
      · exfalso
        have h4 := hf2 g hgt
        rw [h4] at hbit
        exact Bool.noConfusion hbit
    rw [hffz]
    rw [if_neg (by omega)]

theorem kvm_irqchip_gsi_invariants_witness :
    ((kvm_irqchip_get_virq
        { gsi_count := 4, used_gsi_bitmap := fun _ => false, irq_routes := [],
          msi_hashtab := [], direct_msi := true, direct_mapping := false }).2
      = ((0 : Nat) : Int)) ∧
    (kvm_irqchip_get_virq
        { gsi_count := 4, used_gsi_bitmap := fun _ => false, irq_routes := [],
          msi_hashtab := [], direct_msi := true, direct_mapping := false }).1.used_gsi_bitmap 0
      = false :=
  ⟨by decide,
    ((kvm_irqchip_gsi_invariants
        { gsi_count := 4, used_gsi_bitmap := fun _ => false, irq_routes := [],
          msi_hashtab := [], direct_msi := true, direct_mapping := false }
        (IrqReachable.init 4 true false)).2.1 0 (by decide)).2.1⟩
